import Mathlib

unseal Rat.add Rat.sub Rat.mul Rat.inv

/-!
Verification development for the motion-controlled rhythm game
(TempoStrike).  The embedding below translates the real-time note
scheduling / hit-judgement engine from the source:

* `components/GameScene.tsx` (src/unnamed/part_000, first document):
  the per-frame spawn loop, the motion formula, the judge, and the
  note lifecycle bookkeeping inside `useFrame`;
* `constants.ts` (src/unnamed/part_002): track geometry constants and
  direction vectors;
* `App.tsx`: the scoring / health state machine
  (`handleNoteHit`, `handleNoteMiss`, `startGame`, `endGame`).

Numbers are embedded as exact rationals.  The source compares
Euclidean lengths against thresholds (`distanceTo(..) < 0.9`,
`speed < 1.0`, `normalize().dot(dir) < 0.3`); square roots do not
exist in ℚ, so those comparisons are stated in the algebraically
equivalent squared form, noted at each definition.
-/

/-- Rational 3D vector, embedding `THREE.Vector3` as used by the core
(hand positions, hand velocities, note positions, direction vectors). -/
structure Vec3 where
  x : ℚ
  y : ℚ
  z : ℚ
deriving DecidableEq, Repr

/-- Squared Euclidean length; `v.length() < c` in the source is embedded
as `v.normSq < c^2` (equivalent for `c ≥ 0`), and `v.length() ≥ c` as
`c^2 ≤ v.normSq`. -/
def Vec3.normSq (v : Vec3) : ℚ := v.x * v.x + v.y * v.y + v.z * v.z

/-- Squared distance; `a.distanceTo(b) < c` is embedded as
`a.distSq b < c^2`. -/
def Vec3.distSq (a b : Vec3) : ℚ :=
  (a.x - b.x) * (a.x - b.x) + (a.y - b.y) * (a.y - b.y) + (a.z - b.z) * (a.z - b.z)

/-- Dot product, embedding `THREE.Vector3.dot`. -/
def Vec3.dot (a b : Vec3) : ℚ := a.x * b.x + a.y * b.y + a.z * b.z

/-- Embeds `HandType = 'left' | 'right'` from types.ts (src/unnamed/part_001). -/
inductive HandType
  | left
  | right
deriving DecidableEq, Repr

/-- Embeds the `CutDirection` enum from types.ts (UP, DOWN, LEFT, RIGHT, ANY). -/
inductive CutDirection
  | up
  | down
  | left
  | right
  | any
deriving DecidableEq, Repr

/-- Embeds `NoteData` from types.ts: immutable chart fields plus the
mutable lifecycle fields `hit`, `missed`, `hitTime` (optional in the
source, absent = false / undefined). -/
structure NoteData where
  id : String
  time : ℚ
  lineIndex : Nat
  lineLayer : Nat
  type : HandType
  cutDirection : CutDirection
  hit : Bool := false
  missed : Bool := false
  hitTime : Option ℚ := none
deriving DecidableEq, Repr

/-- Embeds `HandPositions` from types.ts: optional tracked position and a
velocity vector per hand. -/
structure HandPositions where
  left : Option Vec3
  right : Option Vec3
  leftVelocity : Vec3
  rightVelocity : Vec3
deriving DecidableEq, Repr

/-- Constant `PLAYER_Z = 0` from constants.ts. -/
def PLAYER_Z : ℚ := 0

/-- Constant `SPAWN_Z = -30` from constants.ts. -/
def SPAWN_Z : ℚ := -30

/-- Constant `MISS_Z = 5` from constants.ts. -/
def MISS_Z : ℚ := 5

/-- Constant `NOTE_SPEED = 14` from constants.ts. -/
def NOTE_SPEED : ℚ := 14

/-- Constant `LANE_WIDTH = 0.8` from constants.ts. -/
def LANE_WIDTH : ℚ := 8/10

/-- Embeds `LANE_X_POSITIONS = [-1.5*LANE_WIDTH, -0.5*LANE_WIDTH, 0.5*LANE_WIDTH, 1.5*LANE_WIDTH]`. -/
def LANE_X_POSITIONS : List ℚ :=
  [-(3/2) * LANE_WIDTH, -(1/2) * LANE_WIDTH, (1/2) * LANE_WIDTH, (3/2) * LANE_WIDTH]

/-- Embeds `LAYER_Y_POSITIONS = [0.8, 1.6, 2.4]`. -/
def LAYER_Y_POSITIONS : List ℚ := [8/10, 16/10, 24/10]

/-- Lane lookup `LANE_X_POSITIONS[note.lineIndex]`; out-of-range indices
(undefined in JS, never produced by the chart generator) default to 0. -/
def laneX (i : Nat) : ℚ := LANE_X_POSITIONS.getD i 0

/-- Layer lookup `LAYER_Y_POSITIONS[note.lineLayer]`, defaulted like `laneX`. -/
def layerY (i : Nat) : ℚ := LAYER_Y_POSITIONS.getD i 0

/-- Embeds `DIRECTION_VECTORS` from constants.ts (the ANY entry is the
zero vector and is never consulted by the judge). -/
def DIRECTION_VECTORS (d : CutDirection) : Vec3 :=
  match d with
  | CutDirection.up => ⟨0, 1, 0⟩
  | CutDirection.down => ⟨0, -1, 0⟩
  | CutDirection.left => ⟨-1, 0, 0⟩
  | CutDirection.right => ⟨1, 0, 0⟩
  | CutDirection.any => ⟨0, 0, 0⟩

/-- Embeds `spawnAheadTime = Math.abs(SPAWN_Z - PLAYER_Z) / NOTE_SPEED`
(GameScene, line 100): the lead time before arrival at which a note is
activated. -/
def spawnAheadTime : ℚ := abs (SPAWN_Z - PLAYER_Z) / NOTE_SPEED

/-- Embeds the motion model (GameScene lines 119-120):
`timeDiff = note.time - time; currentZ = PLAYER_Z - timeDiff * NOTE_SPEED`. -/
def noteZ (n : NoteData) (t : ℚ) : ℚ := PLAYER_Z - (n.time - t) * NOTE_SPEED

/-- Embeds the note world position used by the collision test
(GameScene lines 134-138): lane x, layer y, current z. -/
def notePos3 (n : NoteData) (t : ℚ) : Vec3 :=
  ⟨laneX n.lineIndex, layerY n.lineLayer, noteZ n t⟩

/-- Selects `note.type === 'left' ? hands.left : hands.right` (line 130). -/
def handOf (h : HandType) (hp : HandPositions) : Option Vec3 :=
  match h with
  | HandType.left => hp.left
  | HandType.right => hp.right

/-- Selects `note.type === 'left' ? hands.leftVelocity : hands.rightVelocity`
(line 131). -/
def velOf (h : HandType) (hp : HandPositions) : Vec3 :=
  match h with
  | HandType.left => hp.leftVelocity
  | HandType.right => hp.rightVelocity

/-- Embeds the directional-alignment test of the judge (lines 145-150):
`vecB.copy(handVel).normalize(); dot = vecB.dot(requiredDir); dot ≥ 0.3`.
THREE.js `normalize` divides by the length and leaves the zero vector
fixed, so for `v ≠ 0` the test `dot ≥ 3/10` is equivalent to
`0 ≤ v·d ∧ 9·‖v‖² ≤ 100·(v·d)²`, and for `v = 0` the source yields
`dot = 0 < 0.3`, matched by the `0 < v.normSq` conjunct. -/
def dotAligned (v : Vec3) (d : CutDirection) : Prop :=
  0 < v.normSq ∧ 0 ≤ v.dot (DIRECTION_VECTORS d) ∧
    9 * v.normSq ≤ 100 * (v.dot (DIRECTION_VECTORS d)) * (v.dot (DIRECTION_VECTORS d))

instance (v : Vec3) (d : CutDirection) : Decidable (dotAligned v d) :=
  inferInstanceAs (Decidable (_ ∧ _ ∧ _))

/-- Embeds the minimum-speed test `speed ≥ 1.0` (`speed = handVel.length()`,
line 142) in squared form. -/
def speedOK (v : Vec3) : Prop := 1 ≤ v.normSq

instance (v : Vec3) : Decidable (speedOK v) :=
  inferInstanceAs (Decidable (_ ≤ _))

/-- Embeds the `goodCut` computation (lines 141-155): `goodCut` starts true
and is set false when `dot < 0.3 || speed < 1.0` (directional notes) or
when `speed < 1.0` (ANY notes). -/
def goodCut (d : CutDirection) (v : Vec3) : Bool :=
  match d with
  | CutDirection.any => decide (speedOK v)
  | d' => decide (dotAligned v d' ∧ speedOK v)

/-- Outcome of judging one active note on one frame. -/
inductive NoteOutcome
  | keepNote
  | missNote
  | hitNote (goodCut : Bool)
deriving DecidableEq, Repr

/-- Embeds the per-note branch structure of the update/collide loop body
(GameScene lines 115-163), as a pure decision on the note's current data:

* already `hit || missed` → skipped (`continue`), stays in the array;
* `currentZ > MISS_Z` → missed;
* inside the near-field window `PLAYER_Z - 1.5 < currentZ < PLAYER_Z + 1.0`
  with the assigned hand tracked and within the proximity radius
  (`handPos.distanceTo(notePos) < 0.9`, embedded squared) → hit with
  `goodCut` as computed from direction and speed;
* otherwise → left active unchanged. -/
def judgeNote (t : ℚ) (hands : HandPositions) (note : NoteData) : NoteOutcome :=
  if note.hit || note.missed then NoteOutcome.keepNote
  else if MISS_Z < noteZ note t then NoteOutcome.missNote
  else if PLAYER_Z - 3/2 < noteZ note t ∧ noteZ note t < PLAYER_Z + 1 then
    match handOf note.type hands with
    | none => NoteOutcome.keepNote
    | some hp =>
      if hp.distSq (notePos3 note t) < 81/100 then
        NoteOutcome.hitNote (goodCut note.cutDirection (velOf note.type hands))
      else NoteOutcome.keepNote
  else NoteOutcome.keepNote

/-- Hit/miss events emitted to App (`onNoteHit(note, goodCut)` /
`onNoteMiss(note)`); the note object is identified by its index in the
chart array. -/
inductive GameEvent
  | noteHit (index : Nat) (goodCut : Bool)
  | noteMiss (index : Nat)
deriving DecidableEq, Repr

/-- Index of the note an event is about. -/
def GameEvent.index : GameEvent → Nat
  | GameEvent.noteHit j _ => j
  | GameEvent.noteMiss j => j

/-- Commits one loop iteration for the note at chart index `j`
(GameScene lines 116-161): returns the updated notes array, whether the
note remains in `activeNotesRef` (`true` unless spliced), and the events
emitted.  The miss branch sets `note.missed = true`; the hit branch sets
`note.hit = true; note.hitTime = time`. -/
def processNote (notes : List NoteData) (t : ℚ) (hands : HandPositions) (j : Nat) :
    List NoteData × Bool × List GameEvent :=
  match notes[j]? with
  | none => (notes, true, [])
  | some note =>
    match judgeNote t hands note with
    | NoteOutcome.keepNote => (notes, true, [])
    | NoteOutcome.missNote =>
        (notes.set j { note with missed := true }, false, [GameEvent.noteMiss j])
    | NoteOutcome.hitNote g =>
        (notes.set j { note with hit := true, hitTime := some t }, false,
          [GameEvent.noteHit j g])

/-- Embeds the backwards for-loop over `activeNotesRef.current`
(GameScene line 115, `for (let i = length - 1; i >= 0; i--)` with
`splice(i, 1)` on resolution): the recursion processes the tail of the
active list (the later, first-visited indices) before the head, removal
keeps relative order, and events are emitted in visit order. -/
def judgeList (t : ℚ) (hands : HandPositions) :
    List NoteData → List Nat → List NoteData × List Nat × List GameEvent
  | notes, [] => (notes, [], [])
  | notes, j :: rest =>
      let r1 := judgeList t hands notes rest
      let r2 := processNote r1.1 t hands j
      (r2.1, if r2.2.1 then j :: r1.2.1 else r1.2.1, r1.2.2 ++ r2.2.2)

/-- Counts how many leading chart entries satisfy the spawn condition
`nextNote.time - spawnAheadTime <= time` — the number of iterations of
the spawn `while` loop (GameScene lines 102-110), which stops at the
first not-yet-due note. -/
def spawnCount (t : ℚ) : List NoteData → Nat
  | [] => 0
  | n :: rest => if n.time - spawnAheadTime ≤ t then spawnCount t rest + 1 else 0

/-- The GameScene mutable core state: `notesState` (the chart array whose
note objects carry the lifecycle flags), `nextNoteIndexRef` (spawn
cursor) and `activeNotesRef` (indices of active notes, in push order). -/
structure SceneState where
  notes : List NoteData
  nextNoteIndex : Nat
  activeNotes : List Nat
deriving DecidableEq, Repr

/-- Chart indices activated by the spawn loop on a frame at song time
`t`: the next `spawnCount` indices starting at the cursor. -/
def spawnedIndices (s : SceneState) (t : ℚ) : List Nat :=
  List.range' s.nextNoteIndex (spawnCount t (s.notes.drop s.nextNoteIndex))

/-- Embeds one game-logic pass of `useFrame` while PLAYING with audio
running (GameScene lines 99-164): spawn all due notes (appending them to
the active list, advancing the cursor), then run the judge loop over the
active list against this frame's hand snapshot. -/
def sceneTick (s : SceneState) (t : ℚ) (hands : HandPositions) :
    SceneState × List GameEvent :=
  let act := s.activeNotes ++ spawnedIndices s t
  let r := judgeList t hands s.notes act
  (⟨r.1, s.nextNoteIndex + spawnCount t (s.notes.drop s.nextNoteIndex), r.2.1⟩, r.2.2)

/-- Initial GameScene state for a chart: `useState(chart)`,
`useRef(0)`, `useRef([])`. -/
def initScene (chart : List NoteData) : SceneState := ⟨chart, 0, []⟩

/-- Runs a sequence of frames, each with a song time and a hand snapshot,
tagging every emitted event with the song time of its frame. -/
def runScene : SceneState → List (ℚ × HandPositions) → SceneState × List (ℚ × GameEvent)
  | s, [] => (s, [])
  | s, (t, h) :: rest =>
      let r1 := sceneTick s t h
      let r2 := runScene r1.1 rest
      (r2.1, (r1.2.map fun e => (t, e)) ++ r2.2)

/-- Embeds the `GameStatus` enum from types.ts. -/
inductive GameStatus
  | loading
  | idle
  | playing
  | gameOver
  | victory
deriving DecidableEq, Repr

/-- The four scoring hooks of App.tsx (`score`, `combo`, `multiplier`,
`health`); health is an integer clamped by the handlers. -/
structure RunState where
  score : ℕ
  combo : ℕ
  multiplier : ℕ
  health : ℤ
deriving DecidableEq, Repr

/-- Embeds the multiplier step function inside `handleNoteHit`
(App.tsx lines 63-67), applied to the new combo. -/
def comboMultiplier (c : ℕ) : ℕ :=
  if c > 30 then 8 else if c > 20 then 4 else if c > 10 then 2 else 1

/-- Embeds `handleNoteHit` (App.tsx lines 54-73): `points = 100` plus 50
when the cut was good; the combo is incremented and the multiplier
recomputed from the new combo; the score adds `points * multiplier`
where `multiplier` is the value captured by the callback closure — the
state before this event, not the newly recomputed one; health gains 2
clamped at 100. -/
def noteHitUpdate (g : Bool) (rs : RunState) : RunState :=
  let points : ℕ := if g then 150 else 100
  { score := rs.score + points * rs.multiplier
    combo := rs.combo + 1
    multiplier := comboMultiplier (rs.combo + 1)
    health := min 100 (rs.health + 2) }

/-- Embeds `handleNoteMiss` (App.tsx lines 75-86): combo and multiplier
reset; health loses 15; when the new health is ≤ 0 it clamps to 0 and a
deferred defeat (`setTimeout(() => endGame(false), 0)`) is scheduled,
reported here as the boolean flag. -/
def noteMissUpdate (rs : RunState) : RunState × Bool :=
  let newHealth := rs.health - 15
  if newHealth ≤ 0 then
    ({ score := rs.score, combo := 0, multiplier := 1, health := 0 }, true)
  else
    ({ score := rs.score, combo := 0, multiplier := 1, health := newHealth }, false)

/-- One frame of input to the App layer: the audio clock value, the hand
snapshot, and whether the audio element reports `ended`. -/
structure TickInput where
  time : ℚ
  hands : HandPositions
  ended : Bool
deriving DecidableEq, Repr

/-- Whole-app state: game status, scoring state, GameScene core state. -/
structure AppState where
  status : GameStatus
  run : RunState
  scene : SceneState
deriving DecidableEq, Repr

/-- Applies a frame's event stream to the scoring state in emission
order, OR-ing the deferred defeat flags (each scheduled `endGame(false)`
fires only after the frame's event processing). -/
def applyEvents : RunState → List GameEvent → RunState × Bool
  | rs, [] => (rs, false)
  | rs, GameEvent.noteHit _ g :: rest => applyEvents (noteHitUpdate g rs) rest
  | rs, GameEvent.noteMiss _ :: rest =>
      let r1 := noteMissUpdate rs
      let r2 := applyEvents r1.1 rest
      (r2.1, r1.2 || r2.2)

/-- One whole-app frame: `useFrame` returns immediately unless the status
is PLAYING (GameScene line 89); `audio.ended` triggers
`onSongEnd → endGame(true)` (lines 94-97) before any spawning or
judging; otherwise the scene ticks, the events drive the scoring
handlers, and a scheduled defeat transition (deferred via `setTimeout`)
is applied after all of the frame's events. -/
def appTick (a : AppState) (inp : TickInput) : AppState :=
  if a.status = GameStatus.playing then
    if inp.ended then { a with status := GameStatus.victory }
    else
      let r := sceneTick a.scene inp.time inp.hands
      let e := applyEvents a.run r.2
      if e.2 then { status := GameStatus.gameOver, run := e.1, scene := r.1 }
      else { status := GameStatus.playing, run := e.1, scene := r.1 }
  else a

/-- Embeds `startGame` (App.tsx lines 88-112, successful-audio path): the
four scoring hooks are reset, every chart note object gets
`hit = false; missed = false` (the chart arrays alias the GameScene
state), audio restarts and the status becomes PLAYING.  Note that
`hitTime`, `nextNoteIndexRef` and `activeNotesRef` are not touched —
they live inside the still-mounted GameScene. -/
def startGame (a : AppState) : AppState :=
  { status := GameStatus.playing
    run := { score := 0, combo := 0, multiplier := 1, health := 100 }
    scene := { a.scene with
                notes := a.scene.notes.map fun n => { n with hit := false, missed := false } } }

/-- The list of app states along a run: the start state followed by the
state after each successive frame. -/
def appTrace (a : AppState) : List TickInput → List AppState
  | [] => [a]
  | x :: xs => a :: appTrace (appTick a x) xs

/-- Final app state after a list of frames. -/
def appRun (a : AppState) : List TickInput → AppState
  | [] => a
  | x :: xs => appRun (appTick a x) xs

/-- Number of adjacent PLAYING → GAME_OVER transitions along a state
trace (Defeat transitions). -/
def defeatSteps : List AppState → ℕ
  | p :: q :: rest =>
      (if p.status = GameStatus.playing ∧ q.status = GameStatus.gameOver then 1 else 0) +
        defeatSteps (q :: rest)
  | _ => 0

/-- Scene-level data-structure invariant: the active list holds no
duplicate indices, every active index is already behind the spawn
cursor, and the cursor stays within the chart. -/
def sceneInv (s : SceneState) : Prop :=
  s.activeNotes.Nodup ∧ (∀ j ∈ s.activeNotes, j < s.nextNoteIndex) ∧
    s.nextNoteIndex ≤ s.notes.length

instance (s : SceneState) : Decidable (sceneInv s) :=
  inferInstanceAs (Decidable (_ ∧ _ ∧ _))

/-- Events of a time-tagged event list concerning chart index `j`. -/
def evsForT (j : Nat) (l : List (ℚ × GameEvent)) : List (ℚ × GameEvent) :=
  l.filter fun te => te.2.index = j

/-- Events of an event list concerning chart index `j`. -/
def evsFor (j : Nat) (l : List GameEvent) : List GameEvent :=
  l.filter fun e => e.index = j

/-- Note record produced by committing an outcome at time `t`. -/
def outNote (n : NoteData) (t : ℚ) : NoteOutcome → NoteData
  | NoteOutcome.keepNote => n
  | NoteOutcome.missNote => { n with missed := true }
  | NoteOutcome.hitNote _ => { n with hit := true, hitTime := some t }

/-- Events produced by committing an outcome for index `j`. -/
def outEvents (j : Nat) : NoteOutcome → List GameEvent
  | NoteOutcome.keepNote => []
  | NoteOutcome.missNote => [GameEvent.noteMiss j]
  | NoteOutcome.hitNote g => [GameEvent.noteHit j g]

/-- Whether an outcome leaves the note in the active list. -/
def outKept : NoteOutcome → Bool
  | NoteOutcome.keepNote => true
  | NoteOutcome.missNote => false
  | NoteOutcome.hitNote _ => false

/-! Basic facts about the per-note commit step. -/

theorem getElem?_set_self_of_some {α : Type} (l : List α) (j : Nat) (a b : α)
    (h : l[j]? = some b) : (l.set j a)[j]? = some a := by
  have hj : j < l.length := (List.getElem?_eq_some_iff.mp h).1
  rw [List.getElem?_set_self']
  simp [List.getElem?_eq_getElem hj]

theorem processNote_eq (notes : List NoteData) (t : ℚ) (hands : HandPositions)
    (j : Nat) (n : NoteData) (hn : notes[j]? = some n) :
    processNote notes t hands j =
      (if outKept (judgeNote t hands n) then notes
        else notes.set j (outNote n t (judgeNote t hands n)),
       outKept (judgeNote t hands n),
       outEvents j (judgeNote t hands n)) := by
  unfold processNote
  rw [hn]
  cases h : judgeNote t hands n <;> simp [h, outKept, outNote, outEvents]

theorem processNote_length (notes : List NoteData) (t : ℚ) (hands : HandPositions)
    (j : Nat) : ((processNote notes t hands j).1).length = notes.length := by
  cases h : notes[j]? with
  | none => unfold processNote; rw [h]
  | some note =>
    rw [processNote_eq notes t hands j note h]
    cases h2 : judgeNote t hands note <;> simp [outKept]

theorem processNote_other (notes : List NoteData) (t : ℚ) (hands : HandPositions)
    (j i : Nat) (hne : i ≠ j) :
    ((processNote notes t hands j).1)[i]? = notes[i]? := by
  cases h : notes[j]? with
  | none => unfold processNote; rw [h]
  | some note =>
    rw [processNote_eq notes t hands j note h]
    cases h2 : judgeNote t hands note <;>
      simp [outKept, List.getElem?_set_ne (Ne.symm hne)]

theorem processNote_events (notes : List NoteData) (t : ℚ) (hands : HandPositions)
    (j : Nat) : ∀ e ∈ (processNote notes t hands j).2.2, e.index = j := by
  cases h : notes[j]? with
  | none => unfold processNote; rw [h]; simp
  | some note =>
    rw [processNote_eq notes t hands j note h]
    cases h2 : judgeNote t hands note <;> simp [outEvents, GameEvent.index]

theorem judgeNote_resolved (t : ℚ) (hands : HandPositions) (note : NoteData)
    (h : note.hit = true ∨ note.missed = true) :
    judgeNote t hands note = NoteOutcome.keepNote := by
  unfold judgeNote
  rcases h with h | h <;> simp [h]

/-! Facts about the judge loop over the active list. -/

theorem judgeList_length (t : ℚ) (hands : HandPositions) (L : List Nat)
    (notes : List NoteData) :
    ((judgeList t hands notes L).1).length = notes.length := by
  induction L generalizing notes with
  | nil => rfl
  | cons j rest ih =>
    simp only [judgeList]
    rw [processNote_length, ih]

theorem judgeList_untouched (t : ℚ) (hands : HandPositions) (L : List Nat)
    (i : Nat) (hi : i ∉ L) (notes : List NoteData) :
    ((judgeList t hands notes L).1)[i]? = notes[i]? := by
  induction L generalizing notes with
  | nil => rfl
  | cons j rest ih =>
    simp only [List.mem_cons, not_or] at hi
    simp only [judgeList]
    rw [processNote_other _ _ _ _ _ hi.1, ih hi.2]

theorem judgeList_kept_sublist (t : ℚ) (hands : HandPositions) (L : List Nat)
    (notes : List NoteData) :
    List.Sublist ((judgeList t hands notes L).2.1) L := by
  induction L generalizing notes with
  | nil => simp [judgeList]
  | cons j rest ih =>
    simp only [judgeList]
    cases hk : (processNote (judgeList t hands notes rest).1 t hands j).2.1
    · simp only [Bool.false_eq_true, if_false]
      exact (ih notes).cons j
    · simp only [if_true]
      exact (ih notes).cons₂ j

theorem judgeList_event_mem (t : ℚ) (hands : HandPositions) (L : List Nat)
    (notes : List NoteData) :
    ∀ e ∈ (judgeList t hands notes L).2.2, e.index ∈ L := by
  induction L generalizing notes with
  | nil => simp [judgeList]
  | cons j rest ih =>
    intro e he
    simp only [judgeList, List.mem_append] at he
    rcases he with he | he
    · exact List.mem_cons_of_mem _ (ih notes e he)
    · rw [processNote_events _ _ _ _ e he]
      exact List.mem_cons_self j rest

theorem evsFor_eq_nil (j : Nat) (evs : List GameEvent)
    (h : ∀ e ∈ evs, e.index ≠ j) : evsFor j evs = [] := by
  unfold evsFor
  rw [List.filter_eq_nil_iff]
  intro e he
  simp [h e he]

theorem judgeList_at_mem (t : ℚ) (hands : HandPositions) (L : List Nat)
    (hnd : L.Nodup) (j : Nat) (hj : j ∈ L) (notes : List NoteData)
    (n : NoteData) (hn : notes[j]? = some n) :
    ((judgeList t hands notes L).1)[j]? = some (outNote n t (judgeNote t hands n)) ∧
    evsFor j (judgeList t hands notes L).2.2 = outEvents j (judgeNote t hands n) ∧
    (j ∈ (judgeList t hands notes L).2.1 ↔ outKept (judgeNote t hands n) = true) := by
  induction L generalizing notes with
  | nil => cases hj
  | cons i rest ih =>
    rcases List.nodup_cons.mp hnd with ⟨hir, hndr⟩
    by_cases hij : i = j
    · subst hij
      have hrest1 : ((judgeList t hands notes rest).1)[i]? = some n :=
        (judgeList_untouched t hands rest i hir notes).trans hn
      have hrestE : evsFor i (judgeList t hands notes rest).2.2 = [] := by
        apply evsFor_eq_nil
        intro e he hei
        exact hir (hei ▸ judgeList_event_mem t hands rest notes e he)
      have hrestK : i ∉ (judgeList t hands notes rest).2.1 := fun hmem =>
        hir ((judgeList_kept_sublist t hands rest notes).subset hmem)
      simp only [judgeList, processNote_eq _ t hands i n hrest1]
      refine ⟨?_, ?_, ?_⟩
      · cases hout : judgeNote t hands n with
        | keepNote => simp [outKept, outNote, hrest1]
        | missNote =>
            simp only [outKept, Bool.false_eq_true, if_false]
            exact getElem?_set_self_of_some _ i _ n hrest1
        | hitNote g =>
            simp only [outKept, Bool.false_eq_true, if_false]
            exact getElem?_set_self_of_some _ i _ n hrest1
      · unfold evsFor at hrestE ⊢
        rw [List.filter_append, hrestE, List.nil_append]
        cases hout : judgeNote t hands n <;> simp [outEvents, GameEvent.index]
      · cases hout : judgeNote t hands n <;> simp [outKept, hrestK]
    · have hjrest : j ∈ rest := by
        rcases List.mem_cons.mp hj with h | h
        · exact absurd h.symm hij
        · exact h
      obtain ⟨ih1, ih2, ih3⟩ := ih hndr hjrest notes hn
      simp only [judgeList]
      refine ⟨?_, ?_, ?_⟩
      · rw [processNote_other _ t hands i j fun h => hij h.symm]
        exact ih1
      · have hpe : evsFor j (processNote (judgeList t hands notes rest).1 t hands i).2.2 = [] := by
          apply evsFor_eq_nil
          intro e he
          rw [processNote_events _ t hands i e he]
          exact fun h => hij h
        unfold evsFor at hpe ih2 ⊢
        rw [List.filter_append, hpe, List.append_nil]
        exact ih2
      · cases hk : (processNote (judgeList t hands notes rest).1 t hands i).2.1 <;>
          simp only [hk, if_true, if_false, Bool.false_eq_true, List.mem_cons]
        · exact ih3
        · constructor
          · rintro (h | h)
            · exact absurd h.symm hij
            · exact ih3.mp h
          · exact fun h => Or.inr (ih3.mpr h)

/-! Scene-level lemmas: invariant preservation and the per-note effect
of one frame. -/

theorem sceneTick_notes (s : SceneState) (t : ℚ) (hands : HandPositions) :
    (sceneTick s t hands).1.notes =
      (judgeList t hands s.notes (s.activeNotes ++ spawnedIndices s t)).1 := rfl

theorem sceneTick_events (s : SceneState) (t : ℚ) (hands : HandPositions) :
    (sceneTick s t hands).2 =
      (judgeList t hands s.notes (s.activeNotes ++ spawnedIndices s t)).2.2 := rfl

theorem sceneTick_active (s : SceneState) (t : ℚ) (hands : HandPositions) :
    (sceneTick s t hands).1.activeNotes =
      (judgeList t hands s.notes (s.activeNotes ++ spawnedIndices s t)).2.1 := rfl

theorem sceneTick_cursor (s : SceneState) (t : ℚ) (hands : HandPositions) :
    (sceneTick s t hands).1.nextNoteIndex =
      s.nextNoteIndex + spawnCount t (s.notes.drop s.nextNoteIndex) := rfl

theorem spawnCount_le (t : ℚ) (l : List NoteData) : spawnCount t l ≤ l.length := by
  induction l with
  | nil => simp [spawnCount]
  | cons n rest ih =>
    unfold spawnCount
    split
    · simpa using ih
    · simp

theorem tickList_nodup (s : SceneState) (t : ℚ) (hinv : sceneInv s) :
    (s.activeNotes ++ spawnedIndices s t).Nodup := by
  obtain ⟨hnd, hlt, hle⟩ := hinv
  rw [List.nodup_append]
  refine ⟨hnd, by simp [spawnedIndices, List.nodup_range'], ?_⟩
  intro a ha hb
  have h1 := hlt a ha
  have h2 := (List.mem_range'_1.mp hb).1
  omega

theorem tickList_lt (s : SceneState) (t : ℚ) (hinv : sceneInv s) :
    ∀ j ∈ s.activeNotes ++ spawnedIndices s t,
      j < s.nextNoteIndex + spawnCount t (s.notes.drop s.nextNoteIndex) := by
  obtain ⟨hnd, hlt, hle⟩ := hinv
  intro j hj
  rcases List.mem_append.mp hj with h | h
  · have := hlt j h
    omega
  · have := (List.mem_range'_1.mp h).2
    omega

theorem sceneTick_inv (s : SceneState) (t : ℚ) (hands : HandPositions)
    (hinv : sceneInv s) : sceneInv (sceneTick s t hands).1 := by
  have hnd := tickList_nodup s t hinv
  have hlt := tickList_lt s t hinv
  have hle := hinv.2.2
  refine ⟨?_, ?_, ?_⟩
  · rw [sceneTick_active]
    exact (judgeList_kept_sublist t hands _ s.notes).nodup hnd
  · intro j hj
    rw [sceneTick_active] at hj
    rw [sceneTick_cursor]
    exact hlt j ((judgeList_kept_sublist t hands _ s.notes).subset hj)
  · rw [sceneTick_cursor]
    show _ ≤ ((judgeList t hands s.notes _).1).length
    rw [judgeList_length]
    have := spawnCount_le t (s.notes.drop s.nextNoteIndex)
    rw [List.length_drop] at this
    omega

theorem sceneTick_at_active (s : SceneState) (t : ℚ) (hands : HandPositions)
    (j : Nat) (n : NoteData) (hinv : sceneInv s) (hj : j ∈ s.activeNotes)
    (hn : s.notes[j]? = some n) :
    ((sceneTick s t hands).1.notes)[j]? = some (outNote n t (judgeNote t hands n)) ∧
    evsFor j (sceneTick s t hands).2 = outEvents j (judgeNote t hands n) ∧
    (j ∈ (sceneTick s t hands).1.activeNotes ↔ outKept (judgeNote t hands n) = true) := by
  rw [sceneTick_notes, sceneTick_events, sceneTick_active]
  exact judgeList_at_mem t hands _ (tickList_nodup s t hinv) j
    (List.mem_append_left _ hj) s.notes n hn

theorem sceneTick_at_mem (s : SceneState) (t : ℚ) (hands : HandPositions)
    (j : Nat) (n : NoteData) (hinv : sceneInv s)
    (hj : j ∈ s.activeNotes ++ spawnedIndices s t)
    (hn : s.notes[j]? = some n) :
    ((sceneTick s t hands).1.notes)[j]? = some (outNote n t (judgeNote t hands n)) ∧
    evsFor j (sceneTick s t hands).2 = outEvents j (judgeNote t hands n) ∧
    (j ∈ (sceneTick s t hands).1.activeNotes ↔ outKept (judgeNote t hands n) = true) := by
  rw [sceneTick_notes, sceneTick_events, sceneTick_active]
  exact judgeList_at_mem t hands _ (tickList_nodup s t hinv) j hj s.notes n hn

theorem sceneTick_untouched (s : SceneState) (t : ℚ) (hands : HandPositions)
    (j : Nat) (hj : j ∉ s.activeNotes ++ spawnedIndices s t) :
    ((sceneTick s t hands).1.notes)[j]? = s.notes[j]? ∧
    evsFor j (sceneTick s t hands).2 = [] := by
  rw [sceneTick_notes, sceneTick_events]
  refine ⟨judgeList_untouched t hands _ j hj s.notes, ?_⟩
  apply evsFor_eq_nil
  intro e he hei
  exact hj (hei ▸ judgeList_event_mem t hands _ s.notes e he)

/-! Lifecycle tracking of a single note across a run. -/

theorem evsForT_append (j : Nat) (a b : List (ℚ × GameEvent)) :
    evsForT j (a ++ b) = evsForT j a ++ evsForT j b := by
  unfold evsForT
  exact List.filter_append _ _

theorem evsForT_map (j : Nat) (t : ℚ) (evs : List GameEvent) :
    evsForT j (evs.map fun e => (t, e)) = (evsFor j evs).map fun e => (t, e) := by
  induction evs with
  | nil => rfl
  | cons e rest ih =>
    unfold evsForT evsFor at ih ⊢
    by_cases h : e.index = j <;> simp [List.filter_cons, h] <;>
      simpa [List.filter] using ih

/-- Lifecycle record of the note at chart index `j` that started a run as
the fresh record `n`: either still unresolved with no events emitted for
it, or resolved as Missed with exactly one miss event, or resolved as
Hit with exactly one hit event whose frame time is the recorded
`hitTime`. -/
def trackedJ (n : NoteData) (j : Nat) (s : SceneState) (tevs : List (ℚ × GameEvent)) : Prop :=
  (s.notes[j]? = some n ∧ evsForT j tevs = []) ∨
  (∃ t0, evsForT j tevs = [(t0, GameEvent.noteMiss j)] ∧
      s.notes[j]? = some { n with missed := true }) ∨
  (∃ t0 g, evsForT j tevs = [(t0, GameEvent.noteHit j g)] ∧
      s.notes[j]? = some { n with hit := true, hitTime := some t0 })

theorem trackedJ_step (n : NoteData) (j : Nat) (s : SceneState)
    (tevs : List (ℚ × GameEvent)) (t : ℚ) (hands : HandPositions)
    (hinv : sceneInv s) (htr : trackedJ n j s tevs) :
    trackedJ n j (sceneTick s t hands).1
      (tevs ++ (sceneTick s t hands).2.map fun e => (t, e)) := by
  rcases htr with ⟨hn, he⟩ | ⟨t0, he, hn⟩ | ⟨t0, g, he, hn⟩
  · by_cases hj : j ∈ s.activeNotes ++ spawnedIndices s t
    · obtain ⟨h1, h2, _⟩ := sceneTick_at_mem s t hands j n hinv hj hn
      cases hout : judgeNote t hands n with
      | keepNote =>
        left
        rw [hout] at h1 h2
        refine ⟨h1, ?_⟩
        rw [evsForT_append, he, evsForT_map, h2]
        rfl
      | missNote =>
        right; left
        rw [hout] at h1 h2
        refine ⟨t, ?_, h1⟩
        rw [evsForT_append, he, evsForT_map, h2]
        rfl
      | hitNote g =>
        right; right
        rw [hout] at h1 h2
        refine ⟨t, g, ?_, h1⟩
        rw [evsForT_append, he, evsForT_map, h2]
        rfl
    · obtain ⟨h1, h2⟩ := sceneTick_untouched s t hands j hj
      left
      refine ⟨h1.trans hn, ?_⟩
      rw [evsForT_append, he, evsForT_map, h2]
      rfl
  · right; left
    refine ⟨t0, ?_, ?_⟩ <;>
      [skip;
       skip]
    · by_cases hj : j ∈ s.activeNotes ++ spawnedIndices s t
      · obtain ⟨h1, h2, _⟩ := sceneTick_at_mem s t hands j _ hinv hj hn
        rw [judgeNote_resolved t hands _ (Or.inr rfl)] at h1 h2
        rw [evsForT_append, he, evsForT_map, h2]
        rfl
      · obtain ⟨h1, h2⟩ := sceneTick_untouched s t hands j hj
        rw [evsForT_append, he, evsForT_map, h2]
        rfl
    · by_cases hj : j ∈ s.activeNotes ++ spawnedIndices s t
      · obtain ⟨h1, h2, _⟩ := sceneTick_at_mem s t hands j _ hinv hj hn
        rw [judgeNote_resolved t hands _ (Or.inr rfl)] at h1 h2
        exact h1
      · obtain ⟨h1, h2⟩ := sceneTick_untouched s t hands j hj
        exact h1.trans hn
  · right; right
    refine ⟨t0, g, ?_, ?_⟩
    · by_cases hj : j ∈ s.activeNotes ++ spawnedIndices s t
      · obtain ⟨h1, h2, _⟩ := sceneTick_at_mem s t hands j _ hinv hj hn
        rw [judgeNote_resolved t hands _ (Or.inl rfl)] at h1 h2
        rw [evsForT_append, he, evsForT_map, h2]
        rfl
      · obtain ⟨h1, h2⟩ := sceneTick_untouched s t hands j hj
        rw [evsForT_append, he, evsForT_map, h2]
        rfl
    · by_cases hj : j ∈ s.activeNotes ++ spawnedIndices s t
      · obtain ⟨h1, h2, _⟩ := sceneTick_at_mem s t hands j _ hinv hj hn
        rw [judgeNote_resolved t hands _ (Or.inl rfl)] at h1 h2
        exact h1
      · obtain ⟨h1, h2⟩ := sceneTick_untouched s t hands j hj
        exact h1.trans hn

theorem runScene_tracked (n : NoteData) (j : Nat)
    (ticks : List (ℚ × HandPositions)) :
    ∀ (s : SceneState) (tevs : List (ℚ × GameEvent)), sceneInv s →
      trackedJ n j s tevs →
      trackedJ n j (runScene s ticks).1 (tevs ++ (runScene s ticks).2) ∧
      sceneInv (runScene s ticks).1 := by
  induction ticks with
  | nil =>
    intro s tevs hinv htr
    simpa [runScene] using ⟨htr, hinv⟩
  | cons th rest ih =>
    intro s tevs hinv htr
    obtain ⟨t, h⟩ := th
    have h1 := trackedJ_step n j s tevs t h hinv htr
    have hinv1 := sceneTick_inv s t h hinv
    have h2 := ih (sceneTick s t h).1
      (tevs ++ (sceneTick s t h).2.map fun e => (t, e)) hinv1 h1
    simp only [runScene]
    rw [← List.append_assoc] at *
    exact h2

/-! Concrete fixtures used by witnesses and concrete evaluations. -/

/-- Hand snapshot with neither hand tracked and zero velocities. -/
def handsNone : HandPositions := ⟨none, none, ⟨0, 0, 0⟩, ⟨0, 0, 0⟩⟩

/-- A single ANY-direction chart note arriving at t = 0. -/
def noteW : NoteData :=
  { id := "w", time := 0, lineIndex := 1, lineLayer := 0,
    type := HandType.left, cutDirection := CutDirection.any }

/-- One-note chart for witnesses. -/
def chartW : List NoteData := [noteW]

/-! Claim C1. -/

/-- C1: over a single run, every note is resolved exactly once — at most
one hit/miss event is emitted for it, its final record is never both hit
and missed, its hit flag is set exactly when a hit time is recorded, and
any recorded hit time is the song time of the frame that emitted its
(unique) hit event.  Once resolved, later frames skip the note without
re-transitioning it (its final record is the single-transition record). -/
theorem note_resolution_exactly_once (chart : List NoteData)
    (ticks : List (ℚ × HandPositions)) (j : Nat) (n : NoteData)
    (hn : chart[j]? = some n) (hh : n.hit = false) (hm : n.missed = false)
    (ht : n.hitTime = none) :
    (evsForT j (runScene (initScene chart) ticks).2).length ≤ 1 ∧
    (∀ m, ((runScene (initScene chart) ticks).1.notes)[j]? = some m →
      (¬(m.hit = true ∧ m.missed = true)) ∧
      (m.hit = true ↔ m.hitTime ≠ none) ∧
      (∀ t0 : ℚ, m.hitTime = some t0 →
        ∃ g, (t0, GameEvent.noteHit j g) ∈ (runScene (initScene chart) ticks).2)) := by
  have hinv0 : sceneInv (initScene chart) :=
    ⟨List.nodup_nil, fun j hj => absurd hj (List.not_mem_nil j), Nat.zero_le _⟩
  have htr0 : trackedJ n j (initScene chart) [] := Or.inl ⟨hn, rfl⟩
  obtain ⟨htr, _⟩ := runScene_tracked n j ticks (initScene chart) [] hinv0 htr0
  rw [List.nil_append] at htr
  rcases htr with ⟨h1, h2⟩ | ⟨t0, h2, h1⟩ | ⟨t0, g, h2, h1⟩
  · rw [h2]
    refine ⟨by simp, ?_⟩
    intro m hm2
    rw [h1] at hm2
    cases Option.some_injective _ hm2
    refine ⟨fun hc => by rw [hh] at hc; exact absurd hc.1 (by simp), ?_, ?_⟩
    · rw [hh, ht]; simp
    · intro t0 ht0
      rw [ht] at ht0
      cases ht0
  · rw [h2]
    refine ⟨by simp, ?_⟩
    intro m hm2
    rw [h1] at hm2
    cases Option.some_injective _ hm2
    refine ⟨fun hc => by have := hc.1; rw [show ({ n with missed := true } : NoteData).hit = n.hit from rfl, hh] at this; exact absurd this (by simp), ?_, ?_⟩
    · show n.hit = true ↔ n.hitTime ≠ none
      rw [hh, ht]; simp
    · intro t1 ht1
      rw [show ({ n with missed := true } : NoteData).hitTime = n.hitTime from rfl, ht] at ht1
      cases ht1
  · rw [h2]
    refine ⟨by simp, ?_⟩
    intro m hm2
    rw [h1] at hm2
    cases Option.some_injective _ hm2
    refine ⟨fun hc => by have := hc.2; rw [show ({ n with hit := true, hitTime := some t0 } : NoteData).missed = n.missed from rfl, hm] at this; exact absurd this (by simp), by simp, ?_⟩
    intro t1 ht1
    have : some t1 = some t0 := by
      rw [← ht1]
    cases Option.some_injective _ this
    refine ⟨g, ?_⟩
    have hmem : (t0, GameEvent.noteHit j g) ∈ evsForT j (runScene (initScene chart) ticks).2 := by
      rw [h2]; exact List.mem_singleton.mpr rfl
    exact List.mem_of_mem_filter hmem

/-- C1 witness: a fresh one-note chart over two frames (the note misses
on the first frame and is skipped on the second). -/
theorem note_resolution_exactly_once_witness :
    (chartW[0]? = some noteW ∧ noteW.hit = false ∧ noteW.missed = false ∧
      noteW.hitTime = none) ∧
    ((evsForT 0 (runScene (initScene chartW) [(1, handsNone), (2, handsNone)]).2).length ≤ 1 ∧
    (∀ m, ((runScene (initScene chartW) [(1, handsNone), (2, handsNone)]).1.notes)[0]? = some m →
      (¬(m.hit = true ∧ m.missed = true)) ∧
      (m.hit = true ↔ m.hitTime ≠ none) ∧
      (∀ t0 : ℚ, m.hitTime = some t0 →
        ∃ g, (t0, GameEvent.noteHit 0 g) ∈
          (runScene (initScene chartW) [(1, handsNone), (2, handsNone)]).2))) :=
  ⟨⟨rfl, rfl, rfl, rfl⟩,
    note_resolution_exactly_once chartW [(1, handsNone), (2, handsNone)] 0 noteW rfl rfl rfl rfl⟩

/-! Claim C2. -/

/-- C2 counterexample: with combo 10 and multiplier 1, a good NoteHit
recomputes the multiplier to 2 (new combo 11), yet the score increases
by 150, not by (100 + 50) × 2 = 300 — `handleNoteHit` adds
`points * multiplier` with the multiplier captured before the event
(App.tsx line 71), so the claim as stated fails. -/
theorem noteHit_recomputed_multiplier_cex :
    comboMultiplier ((noteHitUpdate true ⟨0, 10, 1, 100⟩).combo) = 2 ∧
    (noteHitUpdate true ⟨0, 10, 1, 100⟩).multiplier = 2 ∧
    (noteHitUpdate true ⟨0, 10, 1, 100⟩).score = 0 + 150 ∧
    (0 + 150 : ℕ) ≠ 0 + (100 + 50) * 2 := by decide

/-- C2 (amended): on a NoteHit event the combo is incremented by 1, the
multiplier is recomputed as the step function of the new combo, health
becomes min(100, health + 2), and the score increases by
(100, plus 50 if the cut was good) times the multiplier in effect
before the event (the recomputed multiplier only affects later hits). -/
theorem noteHit_update_formula (g : Bool) (rs : RunState) :
    noteHitUpdate g rs =
      { score := rs.score + (100 + if g then 50 else 0) * rs.multiplier
        combo := rs.combo + 1
        multiplier := comboMultiplier (rs.combo + 1)
        health := min 100 (rs.health + 2) } := by
  cases g <;> rfl

/-! Claim C3. -/

/-- Chart note arriving at t = 3 (spawned on a frame at t = 1, stays far
from the judge window there). -/
def noteR1 : NoteData :=
  { id := "r1", time := 3, lineIndex := 1, lineLayer := 0,
    type := HandType.left, cutDirection := CutDirection.any }

/-- Chart note arriving at t = 100 (never due in the short run below). -/
def noteR2 : NoteData :=
  { id := "r2", time := 100, lineIndex := 2, lineLayer := 0,
    type := HandType.right, cutDirection := CutDirection.any }

/-- App state sitting in the menu with the two-note chart loaded. -/
def appIdle : AppState :=
  { status := GameStatus.idle, run := ⟨0, 0, 1, 100⟩,
    scene := initScene [noteR1, noteR2] }

/-- First run: one playing frame at t = 1 (spawns `noteR1`). -/
def appMidRun : AppState := appTick (startGame appIdle) ⟨1, handsNone, false⟩

/-- The song then ends: the run transitions to VICTORY. -/
def appEnded : AppState := appTick appMidRun ⟨2, handsNone, true⟩

/-- The player restarts from the end screen. -/
def appRestarted : AppState := startGame appEnded

/-- C3 (code evaluation at the failing input): the first `startGame`
leaves the cursor at 0, the first playing frame spawns note 0
(cursor 1, ActiveSet [0]), the `ended` frame forces VICTORY — but the
second `startGame` starts a new PLAYING run whose spawn cursor is still
1 and whose ActiveSet still holds the stale entry 0: `startGame` resets
the run state and the note flags only; `nextNoteIndexRef` and
`activeNotesRef` live in the still-mounted GameScene and are never
reset or discarded. -/
theorem startGame_keeps_cursor_and_active :
    (startGame appIdle).scene.nextNoteIndex = 0 ∧
    (startGame appIdle).scene.activeNotes = [] ∧
    appMidRun.scene.nextNoteIndex = 1 ∧
    appMidRun.scene.activeNotes = [0] ∧
    appEnded.status = GameStatus.victory ∧
    appRestarted.status = GameStatus.playing ∧
    appRestarted.run = ⟨0, 0, 1, 100⟩ ∧
    appRestarted.scene.nextNoteIndex = 1 ∧
    appRestarted.scene.activeNotes = [0] := by decide

/-! Claim C8. -/

/-- C8: a NoteHit that brings the combo to 11 sets the multiplier to 2,
to 21 sets it to 4, to 31 sets it to 8; every NoteMiss resets the combo
to 0 and the multiplier to 1. -/
theorem combo_multiplier_steps (s m : ℕ) (hl : ℤ) (g : Bool) (c : ℕ) :
    (noteHitUpdate g ⟨s, 10, m, hl⟩).combo = 11 ∧
    (noteHitUpdate g ⟨s, 10, m, hl⟩).multiplier = 2 ∧
    (noteHitUpdate g ⟨s, 20, m, hl⟩).combo = 21 ∧
    (noteHitUpdate g ⟨s, 20, m, hl⟩).multiplier = 4 ∧
    (noteHitUpdate g ⟨s, 30, m, hl⟩).combo = 31 ∧
    (noteHitUpdate g ⟨s, 30, m, hl⟩).multiplier = 8 ∧
    (noteMissUpdate ⟨s, c, m, hl⟩).1.combo = 0 ∧
    (noteMissUpdate ⟨s, c, m, hl⟩).1.multiplier = 1 := by
  refine ⟨rfl, rfl, rfl, rfl, rfl, rfl, ?_, ?_⟩ <;>
    · simp only [noteMissUpdate]
      split <;> rfl

/-! Claim C9. -/

/-- C9: the Motion Model is the pure function
`position(note, t) = PLAYER_Z - (note.time - t) * NOTE_SPEED`, combined
with the fixed lane/layer coordinates of the note, and for every fixed
note it is strictly increasing in `t` (the note moves strictly toward —
and past — the player as song time increases); being a function, equal
inputs give equal positions. -/
theorem motion_model_monotone (n : NoteData) (t1 t2 : ℚ) (h : t1 < t2) :
    noteZ n t1 < noteZ n t2 ∧
    (∀ t : ℚ, noteZ n t = PLAYER_Z - (n.time - t) * NOTE_SPEED) ∧
    (∀ t : ℚ, notePos3 n t = ⟨laneX n.lineIndex, layerY n.lineLayer, noteZ n t⟩) := by
  refine ⟨?_, fun t => rfl, fun t => rfl⟩
  unfold noteZ NOTE_SPEED PLAYER_Z
  linarith

/-- C9 witness: instantiated at the fixture note and times 0 < 1. -/
theorem motion_model_monotone_witness :
    ((0 : ℚ) < 1) ∧
    (noteZ noteW 0 < noteZ noteW 1 ∧
    (∀ t : ℚ, noteZ noteW t = PLAYER_Z - (noteW.time - t) * NOTE_SPEED) ∧
    (∀ t : ℚ, notePos3 noteW t = ⟨laneX noteW.lineIndex, layerY noteW.lineLayer, noteZ noteW t⟩)) :=
  ⟨by decide, motion_model_monotone noteW 0 1 (by decide)⟩

/-! Branch characterizations of the judge. -/

theorem judgeNote_miss (t : ℚ) (hands : HandPositions) (note : NoteData)
    (hh : note.hit = false) (hm : note.missed = false)
    (hz : MISS_Z < noteZ note t) : judgeNote t hands note = NoteOutcome.missNote := by
  unfold judgeNote
  simp [hh, hm, hz]

theorem judgeNote_hit (t : ℚ) (hands : HandPositions) (note : NoteData) (hp : Vec3)
    (hh : note.hit = false) (hm : note.missed = false)
    (hw1 : PLAYER_Z - 3/2 < noteZ note t) (hw2 : noteZ note t < PLAYER_Z + 1)
    (hhand : handOf note.type hands = some hp)
    (hprox : hp.distSq (notePos3 note t) < 81/100) :
    judgeNote t hands note =
      NoteOutcome.hitNote (goodCut note.cutDirection (velOf note.type hands)) := by
  have hz : ¬ MISS_Z < noteZ note t := by
    unfold MISS_Z PLAYER_Z at *
    intro hcon
    linarith
  unfold judgeNote
  simp [hh, hm, hz, hw1, hw2, hhand, hprox]

theorem goodCut_eq (d : CutDirection) (v : Vec3) (hd : d ≠ CutDirection.any) :
    (goodCut d v = true ↔ (dotAligned v d ∧ speedOK v)) := by
  cases d with
  | any => exact absurd rfl hd
  | up => exact decide_eq_true_iff
  | down => exact decide_eq_true_iff
  | left => exact decide_eq_true_iff
  | right => exact decide_eq_true_iff

/-! Claim C5. -/

/-- C5: on any frame, an Active unresolved note whose computed position
exceeds MISS_Z is classified Missed on that frame unconditionally — the
hand snapshot is universally quantified, so tracking state, position,
velocity and required direction are all irrelevant — the note is removed
from the active list, a miss event is emitted, and its hit time is left
unrecorded. -/
theorem miss_by_deadline (s : SceneState) (t : ℚ) (hands : HandPositions)
    (j : Nat) (n : NoteData) (hinv : sceneInv s) (hj : j ∈ s.activeNotes)
    (hn : s.notes[j]? = some n) (hh : n.hit = false) (hm : n.missed = false)
    (hz : MISS_Z < noteZ n t) :
    ((sceneTick s t hands).1.notes)[j]? = some { n with missed := true } ∧
    j ∉ (sceneTick s t hands).1.activeNotes ∧
    GameEvent.noteMiss j ∈ (sceneTick s t hands).2 ∧
    ({ n with missed := true } : NoteData).hitTime = n.hitTime := by
  obtain ⟨h1, h2, h3⟩ := sceneTick_at_active s t hands j n hinv hj hn
  rw [judgeNote_miss t hands n hh hm hz] at h1 h2 h3
  refine ⟨h1, ?_, ?_, rfl⟩
  · intro hmem
    have := h3.mp hmem
    simp [outKept] at this
  · have hmem : GameEvent.noteMiss j ∈ evsFor j (sceneTick s t hands).2 := by
      rw [h2]
      exact List.mem_singleton.mpr rfl
    exact List.mem_of_mem_filter hmem

/-- Scene fixture: the one-note chart already spawned (cursor 1,
ActiveSet [0]). -/
def sceneW : SceneState := ⟨chartW, 1, [0]⟩

/-- C5 witness: the spawned fixture note at song time 1 sits at z = 14,
past MISS_Z = 5, and is missed whatever the hands do. -/
theorem miss_by_deadline_witness :
    (sceneInv sceneW ∧ 0 ∈ sceneW.activeNotes ∧ sceneW.notes[0]? = some noteW ∧
      noteW.hit = false ∧ noteW.missed = false ∧ MISS_Z < noteZ noteW 1) ∧
    (((sceneTick sceneW 1 handsNone).1.notes)[0]? = some { noteW with missed := true } ∧
     0 ∉ (sceneTick sceneW 1 handsNone).1.activeNotes ∧
     GameEvent.noteMiss 0 ∈ (sceneTick sceneW 1 handsNone).2 ∧
     ({ noteW with missed := true } : NoteData).hitTime = noteW.hitTime) :=
  ⟨⟨by decide, by decide, rfl, rfl, rfl, by decide⟩,
    miss_by_deadline sceneW 1 handsNone 0 noteW (by decide) (by decide) rfl rfl rfl (by decide)⟩

/-! Claim C6. -/

/-- C6: an Active unresolved note with a required direction other than
Any, judged inside the near-field window with its assigned hand tracked
within the proximity radius, is always resolved as a Hit (event emitted,
removed from the active list, hit flag and hit time set) — never
silently ignored — and the outcome is Good exactly when the normalized
hand velocity dotted with the required direction's unit vector is at
least 3/10 (`dotAligned`, stated in squared form) and the hand speed is
at least 1 (`speedOK`, squared); otherwise it is Bad. -/
theorem direction_gating (s : SceneState) (t : ℚ) (hands : HandPositions)
    (j : Nat) (n : NoteData) (hp : Vec3) (hinv : sceneInv s) (hj : j ∈ s.activeNotes)
    (hn : s.notes[j]? = some n) (hh : n.hit = false) (hm : n.missed = false)
    (hdir : n.cutDirection ≠ CutDirection.any)
    (hw1 : PLAYER_Z - 3/2 < noteZ n t) (hw2 : noteZ n t < PLAYER_Z + 1)
    (hhand : handOf n.type hands = some hp)
    (hprox : hp.distSq (notePos3 n t) < 81/100) :
    GameEvent.noteHit j (goodCut n.cutDirection (velOf n.type hands)) ∈
      (sceneTick s t hands).2 ∧
    (goodCut n.cutDirection (velOf n.type hands) = true ↔
      (dotAligned (velOf n.type hands) n.cutDirection ∧ speedOK (velOf n.type hands))) ∧
    j ∉ (sceneTick s t hands).1.activeNotes ∧
    ((sceneTick s t hands).1.notes)[j]? = some { n with hit := true, hitTime := some t } := by
  obtain ⟨h1, h2, h3⟩ := sceneTick_at_active s t hands j n hinv hj hn
  rw [judgeNote_hit t hands n hp hh hm hw1 hw2 hhand hprox] at h1 h2 h3
  refine ⟨?_, goodCut_eq n.cutDirection (velOf n.type hands) hdir, ?_, h1⟩
  · have hmem : GameEvent.noteHit j (goodCut n.cutDirection (velOf n.type hands)) ∈
        evsFor j (sceneTick s t hands).2 := by
      rw [h2]
      exact List.mem_singleton.mpr rfl
    exact List.mem_of_mem_filter hmem
  · intro hmem
    have := h3.mp hmem
    simp [outKept] at this

/-- LEFT-direction note arriving at t = 0 on lane 1, layer 0. -/
def noteL : NoteData :=
  { id := "l", time := 0, lineIndex := 1, lineLayer := 0,
    type := HandType.left, cutDirection := CutDirection.left }

/-- Scene fixture with the LEFT note spawned. -/
def sceneL : SceneState := ⟨[noteL], 1, [0]⟩

/-- Left hand exactly at the note's position, sweeping left at speed 2. -/
def handsLeftGood : HandPositions :=
  ⟨some ⟨-(2/5), 4/5, 0⟩, none, ⟨-2, 0, 0⟩, ⟨0, 0, 0⟩⟩

/-- C6 witness: the LEFT note judged at t = 0 with an aligned, fast left
hand — resolved as a Good hit. -/
theorem direction_gating_witness :
    (sceneInv sceneL ∧ 0 ∈ sceneL.activeNotes ∧ sceneL.notes[0]? = some noteL ∧
      noteL.hit = false ∧ noteL.missed = false ∧
      noteL.cutDirection ≠ CutDirection.any ∧
      PLAYER_Z - 3/2 < noteZ noteL 0 ∧ noteZ noteL 0 < PLAYER_Z + 1 ∧
      handOf noteL.type handsLeftGood = some ⟨-(2/5), 4/5, 0⟩ ∧
      Vec3.distSq ⟨-(2/5), 4/5, 0⟩ (notePos3 noteL 0) < 81/100) ∧
    (GameEvent.noteHit 0 (goodCut noteL.cutDirection (velOf noteL.type handsLeftGood)) ∈
      (sceneTick sceneL 0 handsLeftGood).2 ∧
    (goodCut noteL.cutDirection (velOf noteL.type handsLeftGood) = true ↔
      (dotAligned (velOf noteL.type handsLeftGood) noteL.cutDirection ∧
        speedOK (velOf noteL.type handsLeftGood))) ∧
    0 ∉ (sceneTick sceneL 0 handsLeftGood).1.activeNotes ∧
    ((sceneTick sceneL 0 handsLeftGood).1.notes)[0]? =
      some { noteL with hit := true, hitTime := some 0 }) :=
  ⟨⟨by decide, by decide, rfl, rfl, rfl, by decide, by decide, by decide, rfl, by decide⟩,
    direction_gating sceneL 0 handsLeftGood 0 noteL ⟨-(2/5), 4/5, 0⟩ (by decide) (by decide)
      rfl rfl rfl (by decide) (by decide) (by decide) rfl (by decide)⟩

/-! Claim C4. -/

/-- Scheduled arrival time of the chart entry at index `i` (0 outside
the chart). -/
def noteTimeAt (notes : List NoteData) (i : Nat) : ℚ :=
  match notes[i]? with
  | some n => n.time
  | none => 0

theorem spawnCount_iff (t : ℚ) (l : List NoteData)
    (hs : List.Pairwise (fun a b => a.time ≤ b.time) l) (i : Nat) (hi : i < l.length) :
    (i < spawnCount t l ↔ noteTimeAt l i - spawnAheadTime ≤ t) := by
  induction l generalizing i with
  | nil => cases hi
  | cons n rest ih =>
    rw [List.pairwise_cons] at hs
    cases i with
    | zero =>
      unfold spawnCount noteTimeAt
      split
      case isTrue h => simpa [List.getElem?_cons_zero] using h
      case isFalse h => simpa [List.getElem?_cons_zero] using h
    | succ i =>
      have hti : noteTimeAt (n :: rest) (i + 1) = noteTimeAt rest i := by
        unfold noteTimeAt
        rw [List.getElem?_cons_succ]
      unfold spawnCount
      split
      case isTrue h =>
        have hi2 : i < rest.length := by simpa using hi
        rw [hti, Nat.succ_lt_succ_iff]
        exact ih hs.2 i hi2
      case isFalse h =>
        rw [hti]
        constructor
        · intro hcon
          exact absurd hcon (by omega)
        · intro hcon
          exfalso
          have hi2 : i < rest.length := by simpa using hi
          have hmem : rest[i] ∈ rest := List.getElem_mem hi2
          have hle : n.time ≤ rest[i].time := hs.1 _ hmem
          have : noteTimeAt rest i = rest[i].time := by
            unfold noteTimeAt
            rw [List.getElem?_eq_getElem hi2]
          rw [this] at hcon
          apply h
          linarith

theorem noteTimeAt_drop (l : List NoteData) (n i : Nat) :
    noteTimeAt (l.drop n) i = noteTimeAt l (n + i) := by
  unfold noteTimeAt
  rw [List.getElem?_drop]

/-- C4: on a frame at song time `t` over a time-sorted chart, the spawner
activates exactly the not-yet-activated chart notes with
`arrival_time - spawnAheadTime ≤ t` (the cursor advances to just past
them and no further); the cursor never rewinds; the newly activated
index block holds no duplicates, is disjoint from the existing ActiveSet
(no note is activated twice), and its notes are in non-decreasing
arrival-time order. -/
theorem spawner_exact (s : SceneState) (t : ℚ) (hands : HandPositions)
    (hsorted : List.Pairwise (fun a b => a.time ≤ b.time) s.notes)
    (hinv : sceneInv s) :
    ((sceneTick s t hands).1.nextNoteIndex =
       s.nextNoteIndex + spawnCount t (s.notes.drop s.nextNoteIndex)) ∧
    (∀ j, s.nextNoteIndex ≤ j → j < s.notes.length →
       (j < (sceneTick s t hands).1.nextNoteIndex ↔
         noteTimeAt s.notes j - spawnAheadTime ≤ t)) ∧
    (∀ j, j < s.nextNoteIndex →
       (j ∈ spawnedIndices s t → False) ∧ (j ∈ s.activeNotes → j < s.nextNoteIndex)) ∧
    s.nextNoteIndex ≤ (sceneTick s t hands).1.nextNoteIndex ∧
    (spawnedIndices s t).Nodup ∧
    (∀ j ∈ s.activeNotes, j ∉ spawnedIndices s t) ∧
    List.Pairwise (fun i1 i2 => noteTimeAt s.notes i1 ≤ noteTimeAt s.notes i2)
      (spawnedIndices s t) := by
  have hdropSorted : List.Pairwise (fun a b => a.time ≤ b.time)
      (s.notes.drop s.nextNoteIndex) :=
    hsorted.sublist (List.drop_sublist _ _)
  have hcursor : (sceneTick s t hands).1.nextNoteIndex =
      s.nextNoteIndex + spawnCount t (s.notes.drop s.nextNoteIndex) := rfl
  refine ⟨hcursor, ?_, ?_, ?_, ?_, ?_, ?_⟩
  · intro j hj1 hj2
    rw [hcursor]
    have hi : j - s.nextNoteIndex < (s.notes.drop s.nextNoteIndex).length := by
      rw [List.length_drop]
      omega
    have := spawnCount_iff t (s.notes.drop s.nextNoteIndex) hdropSorted
      (j - s.nextNoteIndex) hi
    rw [noteTimeAt_drop] at this
    have hjj : s.nextNoteIndex + (j - s.nextNoteIndex) = j := by omega
    rw [hjj] at this
    rw [← this]
    omega
  · intro j hj
    refine ⟨?_, fun h => hj⟩
    intro hmem
    have := (List.mem_range'_1.mp hmem).1
    omega
  · omega
  · simp [spawnedIndices, List.nodup_range']
  · intro j hj hmem
    have h1 := hinv.2.1 j hj
    have h2 := (List.mem_range'_1.mp hmem).1
    omega
  · have hlt : List.Pairwise (· < ·) (spawnedIndices s t) := List.pairwise_lt_range' ..
    apply hlt.imp_of_mem
    intro a b ha hb hab
    have hb2 := (List.mem_range'_1.mp hb).2
    have hblen : b < s.notes.length := by
      have := spawnCount_le t (s.notes.drop s.nextNoteIndex)
      rw [List.length_drop] at this
      have hle := hinv.2.2
      omega
    have halen : a < s.notes.length := by omega
    have := List.pairwise_iff_getElem.mp hsorted a b halen hblen hab
    have hta : noteTimeAt s.notes a = s.notes[a].time := by
      unfold noteTimeAt
      rw [List.getElem?_eq_getElem halen]
    have htb : noteTimeAt s.notes b = s.notes[b].time := by
      unfold noteTimeAt
      rw [List.getElem?_eq_getElem hblen]
    rw [hta, htb]
    exact this

/-- C4 witness: the two-note chart (times 3 and 100) at song time 1 —
exactly note 0 is due (3 - 15/7 ≤ 1 < 100 - 15/7). -/
theorem spawner_exact_witness :
    (List.Pairwise (fun a b => a.time ≤ b.time) (initScene [noteR1, noteR2]).notes ∧
      sceneInv (initScene [noteR1, noteR2])) ∧
    (((sceneTick (initScene [noteR1, noteR2]) 1 handsNone).1.nextNoteIndex =
       (initScene [noteR1, noteR2]).nextNoteIndex +
         spawnCount 1 ((initScene [noteR1, noteR2]).notes.drop
           (initScene [noteR1, noteR2]).nextNoteIndex)) ∧
    (∀ j, (initScene [noteR1, noteR2]).nextNoteIndex ≤ j →
       j < (initScene [noteR1, noteR2]).notes.length →
       (j < (sceneTick (initScene [noteR1, noteR2]) 1 handsNone).1.nextNoteIndex ↔
         noteTimeAt (initScene [noteR1, noteR2]).notes j - spawnAheadTime ≤ 1)) ∧
    (∀ j, j < (initScene [noteR1, noteR2]).nextNoteIndex →
       (j ∈ spawnedIndices (initScene [noteR1, noteR2]) 1 → False) ∧
       (j ∈ (initScene [noteR1, noteR2]).activeNotes →
         j < (initScene [noteR1, noteR2]).nextNoteIndex)) ∧
    (initScene [noteR1, noteR2]).nextNoteIndex ≤
      (sceneTick (initScene [noteR1, noteR2]) 1 handsNone).1.nextNoteIndex ∧
    (spawnedIndices (initScene [noteR1, noteR2]) 1).Nodup ∧
    (∀ j ∈ (initScene [noteR1, noteR2]).activeNotes,
      j ∉ spawnedIndices (initScene [noteR1, noteR2]) 1) ∧
    List.Pairwise
      (fun i1 i2 => noteTimeAt (initScene [noteR1, noteR2]).notes i1 ≤
        noteTimeAt (initScene [noteR1, noteR2]).notes i2)
      (spawnedIndices (initScene [noteR1, noteR2]) 1)) :=
  ⟨⟨by decide, by decide⟩,
    spawner_exact (initScene [noteR1, noteR2]) 1 handsNone (by decide) (by decide)⟩

/-! Claim C10. -/

theorem judgeNote_late (t : ℚ) (hands : HandPositions) (note : NoteData)
    (hz : PLAYER_Z + 1 ≤ noteZ note t) :
    judgeNote t hands note = NoteOutcome.keepNote ∨
    (judgeNote t hands note = NoteOutcome.missNote ∧ MISS_Z < noteZ note t) := by
  by_cases hres : (note.hit || note.missed) = true
  · left
    unfold judgeNote
    simp [hres]
  · by_cases hmz : MISS_Z < noteZ note t
    · right
      unfold judgeNote
      simp [hres, hmz]
    · left
      have hw : ¬ (PLAYER_Z - 3/2 < noteZ note t ∧ noteZ note t < PLAYER_Z + 1) := by
        intro hcon
        have := hcon.2
        linarith
      unfold judgeNote
      simp [hres, hmz, hw]

/-- Lifecycle record of a note that never re-enters the hittable window:
either untouched with no events, or resolved as Missed by a single miss
event emitted at a frame whose song time put it past MISS_Z. -/
def coldJ (n : NoteData) (j : Nat) (s : SceneState) (tevs : List (ℚ × GameEvent)) : Prop :=
  (s.notes[j]? = some n ∧ evsForT j tevs = []) ∨
  (∃ t0, evsForT j tevs = [(t0, GameEvent.noteMiss j)] ∧ MISS_Z < noteZ n t0 ∧
      s.notes[j]? = some { n with missed := true })

theorem coldJ_step (n : NoteData) (j : Nat) (s : SceneState)
    (tevs : List (ℚ × GameEvent)) (t : ℚ) (hands : HandPositions)
    (hz : PLAYER_Z + 1 ≤ noteZ n t)
    (hinv : sceneInv s) (htr : coldJ n j s tevs) :
    coldJ n j (sceneTick s t hands).1
      (tevs ++ (sceneTick s t hands).2.map fun e => (t, e)) := by
  rcases htr with ⟨hn, he⟩ | ⟨t0, he, hz0, hn⟩
  · by_cases hj : j ∈ s.activeNotes ++ spawnedIndices s t
    · obtain ⟨h1, h2, _⟩ := sceneTick_at_mem s t hands j n hinv hj hn
      rcases judgeNote_late t hands n hz with hout | ⟨hout, hmz⟩
      · left
        rw [hout] at h1 h2
        refine ⟨h1, ?_⟩
        rw [evsForT_append, he, evsForT_map, h2]
        rfl
      · right
        rw [hout] at h1 h2
        refine ⟨t, ?_, hmz, h1⟩
        rw [evsForT_append, he, evsForT_map, h2]
        rfl
    · obtain ⟨h1, h2⟩ := sceneTick_untouched s t hands j hj
      left
      refine ⟨h1.trans hn, ?_⟩
      rw [evsForT_append, he, evsForT_map, h2]
      rfl
  · right
    refine ⟨t0, ?_, hz0, ?_⟩
    · by_cases hj : j ∈ s.activeNotes ++ spawnedIndices s t
      · obtain ⟨h1, h2, _⟩ := sceneTick_at_mem s t hands j _ hinv hj hn
        rw [judgeNote_resolved t hands _ (Or.inr rfl)] at h1 h2
        rw [evsForT_append, he, evsForT_map, h2]
        rfl
      · obtain ⟨h1, h2⟩ := sceneTick_untouched s t hands j hj
        rw [evsForT_append, he, evsForT_map, h2]
        rfl
    · by_cases hj : j ∈ s.activeNotes ++ spawnedIndices s t
      · obtain ⟨h1, h2, _⟩ := sceneTick_at_mem s t hands j _ hinv hj hn
        rw [judgeNote_resolved t hands _ (Or.inr rfl)] at h1 h2
        exact h1
      · obtain ⟨h1, h2⟩ := sceneTick_untouched s t hands j hj
        exact h1.trans hn

theorem runScene_cold (n : NoteData) (j : Nat) (ticks : List (ℚ × HandPositions)) :
    ∀ (s : SceneState) (tevs : List (ℚ × GameEvent)), sceneInv s →
      (∀ p ∈ ticks, PLAYER_Z + 1 ≤ noteZ n p.1) → coldJ n j s tevs →
      coldJ n j (runScene s ticks).1 (tevs ++ (runScene s ticks).2) := by
  induction ticks with
  | nil =>
    intro s tevs hinv hlate htr
    simpa [runScene] using htr
  | cons th rest ih =>
    intro s tevs hinv hlate htr
    obtain ⟨t, h⟩ := th
    have hz : PLAYER_Z + 1 ≤ noteZ n t := hlate (t, h) (List.mem_cons_self _ _)
    have h1 := coldJ_step n j s tevs t h hz hinv htr
    have hinv1 := sceneTick_inv s t h hinv
    have hlate1 : ∀ p ∈ rest, PLAYER_Z + 1 ≤ noteZ n p.1 := fun p hp =>
      hlate p (List.mem_cons_of_mem _ hp)
    have h2 := ih (sceneTick s t h).1
      (tevs ++ (sceneTick s t h).2.map fun e => (t, e)) hinv1 hlate1 h1
    simp only [runScene]
    rw [← List.append_assoc] at *
    exact h2

/-- C10 (implicit): from any valid scene state, over any frames whose
song times all place the note at chart index `j` at or beyond the far
edge of the hittable window (`PLAYER_Z + 1 ≤ z`), the note can never be
Hit: no hit event for it is ever emitted and its hit flag stays false;
any miss event for it happens only at a frame time putting it strictly
past `MISS_Z`, and its missed flag is set only by such an event — so
with `z ≤ MISS_Z` as well it is neither hit nor missed on such a frame,
and its only possible resolution ever after is Missed, past `MISS_Z`. -/
theorem no_hit_past_window (s : SceneState) (ticks : List (ℚ × HandPositions))
    (j : Nat) (n : NoteData) (hinv : sceneInv s) (hn : s.notes[j]? = some n)
    (hh : n.hit = false) (hm : n.missed = false)
    (hlate : ∀ p ∈ ticks, PLAYER_Z + 1 ≤ noteZ n p.1) :
    (∀ te ∈ (runScene s ticks).2, ∀ g, te.2 ≠ GameEvent.noteHit j g) ∧
    (∀ m, ((runScene s ticks).1.notes)[j]? = some m → m.hit = false) ∧
    (∀ te ∈ (runScene s ticks).2, te.2 = GameEvent.noteMiss j →
      MISS_Z < noteZ n te.1) ∧
    (∀ m, ((runScene s ticks).1.notes)[j]? = some m → m.missed = true →
      ∃ t0, MISS_Z < noteZ n t0 ∧ (t0, GameEvent.noteMiss j) ∈ (runScene s ticks).2) := by
  have hcold := runScene_cold n j ticks s [] hinv hlate (Or.inl ⟨hn, rfl⟩)
  rw [List.nil_append] at hcold
  rcases hcold with ⟨h1, h2⟩ | ⟨t0, h2, hz0, h1⟩
  · refine ⟨?_, ?_, ?_, ?_⟩
    · intro te hte g hhit
      have : te ∈ evsForT j (runScene s ticks).2 := by
        unfold evsForT
        rw [List.mem_filter]
        exact ⟨hte, by rw [hhit]; simp [GameEvent.index]⟩
      rw [h2] at this
      cases this
    · intro m hm2
      rw [h1] at hm2
      cases Option.some_injective _ hm2
      exact hh
    · intro te hte hmiss
      have : te ∈ evsForT j (runScene s ticks).2 := by
        unfold evsForT
        rw [List.mem_filter]
        exact ⟨hte, by rw [hmiss]; simp [GameEvent.index]⟩
      rw [h2] at this
      cases this
    · intro m hm2 hmt
      rw [h1] at hm2
      cases Option.some_injective _ hm2
      exact absurd hmt (by rw [hm]; simp)
  · refine ⟨?_, ?_, ?_, ?_⟩
    · intro te hte g hhit
      have hmem : te ∈ evsForT j (runScene s ticks).2 := by
        unfold evsForT
        rw [List.mem_filter]
        exact ⟨hte, by rw [hhit]; simp [GameEvent.index]⟩
      rw [h2] at hmem
      rw [List.mem_singleton] at hmem
      rw [hmem] at hhit
      cases hhit
    · intro m hm2
      rw [h1] at hm2
      cases Option.some_injective _ hm2
      exact hh
    · intro te hte hmiss
      have hmem : te ∈ evsForT j (runScene s ticks).2 := by
        unfold evsForT
        rw [List.mem_filter]
        exact ⟨hte, by rw [hmiss]; simp [GameEvent.index]⟩
      rw [h2] at hmem
      rw [List.mem_singleton] at hmem
      rw [hmem]
      exact hz0
    · intro m hm2 hmt
      refine ⟨t0, hz0, ?_⟩
      have hmem : (t0, GameEvent.noteMiss j) ∈ evsForT j (runScene s ticks).2 := by
        rw [h2]
        exact List.mem_singleton.mpr rfl
      exact List.mem_of_mem_filter hmem

/-- C10 witness: the spawned fixture note at a single frame at song time
1 (z = 14, past the window and past MISS_Z). -/
theorem no_hit_past_window_witness :
    (sceneInv sceneW ∧ sceneW.notes[0]? = some noteW ∧ noteW.hit = false ∧
      noteW.missed = false ∧
      (∀ p ∈ [((1:ℚ), handsNone)], PLAYER_Z + 1 ≤ noteZ noteW p.1)) ∧
    ((∀ te ∈ (runScene sceneW [(1, handsNone)]).2, ∀ g,
        te.2 ≠ GameEvent.noteHit 0 g) ∧
    (∀ m, ((runScene sceneW [(1, handsNone)]).1.notes)[0]? = some m → m.hit = false) ∧
    (∀ te ∈ (runScene sceneW [(1, handsNone)]).2, te.2 = GameEvent.noteMiss 0 →
      MISS_Z < noteZ noteW te.1) ∧
    (∀ m, ((runScene sceneW [(1, handsNone)]).1.notes)[0]? = some m → m.missed = true →
      ∃ t0, MISS_Z < noteZ noteW t0 ∧
        (t0, GameEvent.noteMiss 0) ∈ (runScene sceneW [(1, handsNone)]).2)) :=
  ⟨⟨by decide, rfl, rfl, rfl, by decide⟩,
    no_hit_past_window sceneW [(1, handsNone)] 0 noteW (by decide) rfl rfl rfl (by decide)⟩

/-! Claim C7. -/

theorem noteHitUpdate_health (g : Bool) (rs : RunState) :
    (noteHitUpdate g rs).health = min 100 (rs.health + 2) := rfl

theorem noteMissUpdate_health (rs : RunState) :
    (noteMissUpdate rs).1.health = max 0 (rs.health - 15) := by
  simp only [noteMissUpdate]
  split
  case isTrue h => simp; omega
  case isFalse h => simp; omega

theorem noteMissUpdate_defeat (rs : RunState) :
    ((noteMissUpdate rs).2 = true ↔ rs.health - 15 ≤ 0) := by
  simp only [noteMissUpdate]
  split
  case isTrue h => simpa using h
  case isFalse h => simpa using h

theorem applyEvents_health (evs : List GameEvent) :
    ∀ rs : RunState, 0 ≤ rs.health → rs.health ≤ 100 →
      0 ≤ (applyEvents rs evs).1.health ∧ (applyEvents rs evs).1.health ≤ 100 := by
  induction evs with
  | nil => exact fun rs h0 h100 => ⟨h0, h100⟩
  | cons e rest ih =>
    intro rs h0 h100
    cases e with
    | noteHit idx g =>
      apply ih
      · rw [noteHitUpdate_health]; omega
      · rw [noteHitUpdate_health]; omega
    | noteMiss idx =>
      simp only [applyEvents]
      apply ih
      · rw [noteMissUpdate_health]; omega
      · rw [noteMissUpdate_health]; omega

theorem appTick_health (a : AppState) (x : TickInput)
    (h0 : 0 ≤ a.run.health) (h100 : a.run.health ≤ 100) :
    0 ≤ (appTick a x).run.health ∧ (appTick a x).run.health ≤ 100 := by
  unfold appTick
  by_cases hs : a.status = GameStatus.playing
  · simp only [hs, if_true]
    by_cases he : x.ended = true
    · simp only [he, if_true]
      exact ⟨h0, h100⟩
    · simp only [he, if_false, Bool.false_eq_true]
      have hb := applyEvents_health (sceneTick a.scene x.time x.hands).2 a.run h0 h100
      split <;> exact hb
  · simp only [hs, if_false]
    exact ⟨h0, h100⟩

theorem appTrace_health (ticks : List TickInput) :
    ∀ a : AppState, 0 ≤ a.run.health → a.run.health ≤ 100 →
      ∀ b ∈ appTrace a ticks, 0 ≤ b.run.health ∧ b.run.health ≤ 100 := by
  induction ticks with
  | nil =>
    intro a h0 h100 b hb
    rw [appTrace, List.mem_singleton] at hb
    rw [hb]
    exact ⟨h0, h100⟩
  | cons x xs ih =>
    intro a h0 h100 b hb
    rw [appTrace, List.mem_cons] at hb
    rcases hb with hb | hb
    · rw [hb]
      exact ⟨h0, h100⟩
    · obtain ⟨h0x, h100x⟩ := appTick_health a x h0 h100
      exact ih (appTick a x) h0x h100x b hb

theorem appTick_frozen (a : AppState) (x : TickInput)
    (hs : a.status ≠ GameStatus.playing) : appTick a x = a := by
  unfold appTick
  simp [hs]

theorem appTrace_head (a : AppState) (ticks : List TickInput) :
    ∃ tl, appTrace a ticks = a :: tl := by
  cases ticks <;> exact ⟨_, rfl⟩

theorem defeatSteps_frozen (ticks : List TickInput) :
    ∀ a : AppState, a.status ≠ GameStatus.playing →
      defeatSteps (appTrace a ticks) = 0 := by
  induction ticks with
  | nil => intro a hs; rfl
  | cons x xs ih =>
    intro a hs
    rw [appTrace, appTick_frozen a x hs]
    obtain ⟨tl, htl⟩ := appTrace_head a xs
    rw [htl]
    show (if a.status = GameStatus.playing ∧ a.status = GameStatus.gameOver then 1 else 0) +
      defeatSteps (a :: tl) = 0
    rw [if_neg fun hc => hs hc.1, ← htl, ih a hs]

theorem appTick_not_playing_after (a : AppState) (x : TickInput)
    (h : (appTick a x).status = GameStatus.gameOver) :
    (appTick a x).status ≠ GameStatus.playing := by
  rw [h]
  intro hc
  cases hc

theorem defeatSteps_le_one (ticks : List TickInput) :
    ∀ a : AppState, defeatSteps (appTrace a ticks) ≤ 1 := by
  induction ticks with
  | nil =>
    intro a
    rw [appTrace]
    show (0:ℕ) ≤ 1
    omega
  | cons x xs ih =>
    intro a
    by_cases hs : a.status = GameStatus.playing
    · obtain ⟨tl, htl⟩ := appTrace_head (appTick a x) xs
      rw [appTrace, htl]
      show (if a.status = GameStatus.playing ∧
          (appTick a x).status = GameStatus.gameOver then 1 else 0) +
        defeatSteps (appTick a x :: tl) ≤ 1
      rw [← htl]
      by_cases hgo : (appTick a x).status = GameStatus.gameOver
      · rw [if_pos ⟨hs, hgo⟩,
          defeatSteps_frozen xs (appTick a x) (appTick_not_playing_after a x hgo)]
      · rw [if_neg fun hc => hgo hc.2]
        have := ih (appTick a x)
        omega
    · rw [defeatSteps_frozen (x :: xs) a hs]
      omega

theorem appTick_defeat_iff (b : AppState) (x : TickInput)
    (hs : b.status = GameStatus.playing) (he : x.ended = false) :
    ((appTick b x).status = GameStatus.gameOver ↔
      (applyEvents b.run (sceneTick b.scene x.time x.hands).2).2 = true) := by
  unfold appTick
  simp only [hs, if_true, he, Bool.false_eq_true, if_false]
  cases hb : (applyEvents b.run (sceneTick b.scene x.time x.hands).2).2 <;>
    simp [hb]

/-- C7: health always stays within [0, 100] along a run whose state
starts in bounds; each NoteHit adds 2 clamped at 100 and each NoteMiss
subtracts 15 clamped at 0, the scheduled-defeat flag of a NoteMiss is
set exactly when the decrement reaches ≤ 0; at most one
PLAYING → GAME_OVER (Defeat) transition occurs along any trace; and a
PLAYING frame (song not ended) transitions to GAME_OVER exactly when its
event processing raised the deferred defeat flag — the transition is
applied after all of the frame's events, never mid-update. -/
theorem health_clamped_single_defeat (a : AppState) (ticks : List TickInput)
    (h0 : 0 ≤ a.run.health) (h100 : a.run.health ≤ 100) :
    (∀ (g : Bool) (rs : RunState), (noteHitUpdate g rs).health = min 100 (rs.health + 2)) ∧
    (∀ rs : RunState, (noteMissUpdate rs).1.health = max 0 (rs.health - 15) ∧
      ((noteMissUpdate rs).2 = true ↔ rs.health - 15 ≤ 0)) ∧
    (∀ b ∈ appTrace a ticks, 0 ≤ b.run.health ∧ b.run.health ≤ 100) ∧
    defeatSteps (appTrace a ticks) ≤ 1 ∧
    (∀ (b : AppState) (x : TickInput), b.status = GameStatus.playing → x.ended = false →
      ((appTick b x).status = GameStatus.gameOver ↔
        (applyEvents b.run (sceneTick b.scene x.time x.hands).2).2 = true)) :=
  ⟨fun g rs => noteHitUpdate_health g rs,
   fun rs => ⟨noteMissUpdate_health rs, noteMissUpdate_defeat rs⟩,
   appTrace_health ticks a h0 h100,
   defeatSteps_le_one ticks a,
   fun b x => appTick_defeat_iff b x⟩

/-- C7 witness: a fresh run over one frame at t = 7/2 on which the first
chart note is missed (health 100 → 85, no defeat). -/
theorem health_clamped_single_defeat_witness :
    (0 ≤ (startGame appIdle).run.health ∧ (startGame appIdle).run.health ≤ 100) ∧
    ((∀ (g : Bool) (rs : RunState), (noteHitUpdate g rs).health = min 100 (rs.health + 2)) ∧
    (∀ rs : RunState, (noteMissUpdate rs).1.health = max 0 (rs.health - 15) ∧
      ((noteMissUpdate rs).2 = true ↔ rs.health - 15 ≤ 0)) ∧
    (∀ b ∈ appTrace (startGame appIdle) [⟨7/2, handsNone, false⟩],
      0 ≤ b.run.health ∧ b.run.health ≤ 100) ∧
    defeatSteps (appTrace (startGame appIdle) [⟨7/2, handsNone, false⟩]) ≤ 1 ∧
    (∀ (b : AppState) (x : TickInput), b.status = GameStatus.playing → x.ended = false →
      ((appTick b x).status = GameStatus.gameOver ↔
        (applyEvents b.run (sceneTick b.scene x.time x.hands).2).2 = true))) :=
  ⟨⟨by decide, by decide⟩,
    health_clamped_single_defeat (startGame appIdle) [⟨7/2, handsNone, false⟩]
      (by decide) (by decide)⟩
